import Mathlib

/-!
Verification of the match state engine of riftbound-manual-sim.

The definitions below are a shallow embedding of:
  * the data model of src/src/types/match.ts,
  * the Mutation Engine of src/src/lib/matchState.ts,
  * the Action Gateway of src/app/api/match/[code]/action/route.ts,
  * the persistence step of that route against the match_state / match_events
    tables declared in src/supabase/migrations.

TypeScript mutates state in place; each embedded operation instead returns the
updated value.  JavaScript numbers reaching the engine through JSON payloads are
modelled as `Int`; the ambient `Math.random()` stream consumed by the shuffle is
made explicit as a function argument `rand : Nat → Nat` (the code itself takes
no such parameter — see the theorems about claim C7).
-/

namespace RiftSim

/-- PlayerSlot from src/src/types/match.ts: `"p1" | "p2"`. -/
inductive PlayerSlot
  | p1
  | p2
deriving DecidableEq

/-- ZoneKey from src/src/types/match.ts: `"deck" | "hand" | "battlefield" | "discard"`. -/
inductive ZoneKey
  | deck
  | hand
  | battlefield
  | discard
deriving DecidableEq

/-- MatchCard from src/src/types/match.ts. -/
structure MatchCard where
  uid : String
  name : String
  img : Option String
deriving DecidableEq

/-- PlayerZones from src/src/types/match.ts. -/
structure PlayerZones where
  deck : List MatchCard
  hand : List MatchCard
  battlefield : List MatchCard
  discard : List MatchCard
deriving DecidableEq

/-- PlayerState from src/src/types/match.ts. -/
structure PlayerState where
  id : Option String
  life : Int
  zones : PlayerZones
deriving DecidableEq

/-- The `players` record of MatchState (fields `p1` and `p2`). -/
structure Players where
  p1 : PlayerState
  p2 : PlayerState
deriving DecidableEq

/-- MatchState from src/src/types/match.ts.  Note that the interface has exactly
the four fields below: it carries no version counter of any kind. -/
structure MatchState where
  players : Players
  turn : PlayerSlot
  phase : String
  createdAt : String
deriving DecidableEq

/-- Indexing `state.players[slot]`. -/
def Players.get (ps : Players) : PlayerSlot → PlayerState
  | .p1 => ps.p1
  | .p2 => ps.p2

/-- Functional update of `state.players[slot]`. -/
def Players.set (ps : Players) : PlayerSlot → PlayerState → Players
  | .p1, v => { ps with p1 := v }
  | .p2, v => { ps with p2 := v }

/-- Indexing `zones[zone]`. -/
def PlayerZones.get (z : PlayerZones) : ZoneKey → List MatchCard
  | .deck => z.deck
  | .hand => z.hand
  | .battlefield => z.battlefield
  | .discard => z.discard

/-- Functional update of `zones[zone]`. -/
def PlayerZones.set (z : PlayerZones) : ZoneKey → List MatchCard → PlayerZones
  | .deck, v => { z with deck := v }
  | .hand, v => { z with hand := v }
  | .battlefield, v => { z with battlefield := v }
  | .discard, v => { z with discard := v }

/-- Reading `state.players[slot].zones[zone]`. -/
def getZone (state : MatchState) (slot : PlayerSlot) (zone : ZoneKey) : List MatchCard :=
  ((state.players.get slot).zones).get zone

/-- Writing `state.players[slot].zones[zone] = cards` as a functional update. -/
def setZone (state : MatchState) (slot : PlayerSlot) (zone : ZoneKey)
    (cards : List MatchCard) : MatchState :=
  let player := state.players.get slot
  { state with players := state.players.set slot { player with zones := player.zones.set zone cards } }

/-- One swap step `[array[i], array[j]] = [array[j], array[i]]` of `shuffleArray`
in src/src/lib/matchState.ts, on lists: exchange the elements at positions `i`
and `j` (out-of-range indices leave the list unchanged; the source only ever
uses in-range indices). -/
def listSwap (xs : List α) (i j : Nat) : List α :=
  match xs.get? i, xs.get? j with
  | some a, some b => (xs.set i b).set j a
  | _, _ => xs

/-- The loop of `shuffleArray` in src/src/lib/matchState.ts: for `i` from the
last index down to `1`, swap element `i` with element
`j = Math.floor(Math.random() * (i + 1))`.  The ambient `Math.random()` stream
is modelled by `rand`: at loop index `i` the sampled `j ∈ [0, i]` is
`rand i % (i + 1)`. -/
def shuffleLoop (rand : Nat → Nat) : Nat → List α → List α
  | 0, xs => xs
  | i + 1, xs => shuffleLoop rand i (listSwap xs (i + 1) (rand (i + 1) % (i + 2)))

/-- Function `shuffleArray` from src/src/lib/matchState.ts (in-place Fisher–Yates driven
by `Math.random()`, here made explicit via `rand`). -/
def shuffleArray (rand : Nat → Nat) (xs : List α) : List α :=
  shuffleLoop rand (xs.length - 1) xs

/-- Function `shuffleDeck` from src/src/lib/matchState.ts: shuffles `players[slot].zones.deck`
in place.  The TypeScript signature is `shuffleDeck(state, slot)` — the random
source is the ambient global `Math.random()`, surfaced here as `rand`. -/
def shuffleDeck (rand : Nat → Nat) (state : MatchState) (slot : PlayerSlot) : MatchState :=
  setZone state slot .deck (shuffleArray rand (getZone state slot .deck))

/-- The loop of `drawCards`: `count` times, `shift` a card from the deck front
(breaking when the deck is empty) and `unshift` it onto the hand front. -/
def drawLoop : Nat → List MatchCard → List MatchCard → List MatchCard × List MatchCard
  | 0, deck, hand => (deck, hand)
  | n + 1, deck, hand =>
    match deck with
    | [] => (deck, hand)
    | card :: rest => drawLoop n rest (card :: hand)

/-- Function `drawCards` from src/src/lib/matchState.ts. -/
def drawCards (state : MatchState) (slot : PlayerSlot) (count : Nat) : MatchState :=
  let (deck, hand) := drawLoop count (getZone state slot .deck) (getZone state slot .hand)
  setZone (setZone state slot .deck deck) slot .hand hand

/-- Position argument of `moveCardBetweenZones`: `"top" | "bottom"`. -/
inductive MovePosition
  | top
  | bottom
deriving DecidableEq

/-- Function `moveCardBetweenZones` from src/src/lib/matchState.ts: find the card by uid
in the source zone (`findIndex`), return the state unchanged when absent
(`cardIndex === -1`), otherwise `splice` it out and `push`/`unshift` it onto the
destination zone, which the source reads after the removal. -/
def moveCardBetweenZones (state : MatchState)
    (fromSlot : PlayerSlot) (fromZone : ZoneKey)
    (toSlot : PlayerSlot) (toZone : ZoneKey)
    (cardUid : String) (position : MovePosition) : MatchState :=
  let sourceZone := getZone state fromSlot fromZone
  match sourceZone.findIdx? (fun card => card.uid == cardUid) with
  | none => state
  | some cardIndex =>
    match sourceZone.get? cardIndex with
    | none => state
    | some card =>
      let state1 := setZone state fromSlot fromZone (sourceZone.eraseIdx cardIndex)
      let destinationZone := getZone state1 toSlot toZone
      let newDestination :=
        match position with
        | .bottom => destinationZone ++ [card]
        | .top => card :: destinationZone
      setZone state1 toSlot toZone newDestination

/-- The while-loop of `mulliganHand`: `shift` cards off the hand one at a time
and `unshift` each onto the deck front, until the hand is empty. -/
def mulliganLoop : List MatchCard → List MatchCard → List MatchCard × List MatchCard
  | [], deck => ([], deck)
  | card :: hand, deck => mulliganLoop hand (card :: deck)

/-- Function `mulliganHand` from src/src/lib/matchState.ts: empty the hand onto the deck
front, then `shuffleDeck`. -/
def mulliganHand (rand : Nat → Nat) (state : MatchState) (slot : PlayerSlot) : MatchState :=
  let (hand, deck) := mulliganLoop (getZone state slot .hand) (getZone state slot .deck)
  shuffleDeck rand (setZone (setZone state slot .hand hand) slot .deck deck) slot

/-- Function `adjustLifeTotal` from src/src/lib/matchState.ts: `players[slot].life += delta`. -/
def adjustLifeTotal (state : MatchState) (slot : PlayerSlot) (delta : Int) : MatchState :=
  let player := state.players.get slot
  { state with players := state.players.set slot { player with life := player.life + delta } }

/-- Function `endTurn` from src/src/lib/matchState.ts: flip `turn` and reset `phase` to `"main"`. -/
def endTurn (state : MatchState) : MatchState :=
  { state with
    turn := match state.turn with | .p1 => .p2 | .p2 => .p1
    phase := "main" }

/-- The ZONES constant of src/src/lib/matchState.ts as zone-name strings. -/
def ZONES : List String := ["deck", "hand", "battlefield", "discard"]

/-- Function `validateZone` from src/src/lib/matchState.ts. -/
def validateZone (zone : String) : Bool :=
  ZONES.contains zone

/-!
Action Gateway: src/app/api/match/[code]/action/route.ts.

The untyped JSON payload fields (`payload: Record<string, unknown>`) are
modelled by `JsonVal`; a field absent from the request body is `none`.
-/

/-- A JSON value, as a payload field arrives at the gateway after
`request.json()`. -/
inductive JsonVal
  | str (s : String)
  | num (n : Int)
  | jsonBool (b : Bool)
  | null
  | arr (xs : List JsonVal)
  | obj (fields : List (String × JsonVal))

/-- The payload fields the action route reads (`player`, `count`, `cardUid`,
`fromSlot`, `toSlot`, `fromZone`, `toZone`, `position`, `delta`); any of them
may be absent or hold a value of the wrong shape. -/
structure ActionPayload where
  player : Option JsonVal := none
  count : Option JsonVal := none
  cardUid : Option JsonVal := none
  fromSlot : Option JsonVal := none
  toSlot : Option JsonVal := none
  fromZone : Option JsonVal := none
  toZone : Option JsonVal := none
  position : Option JsonVal := none
  delta : Option JsonVal := none

/-- Function `normalizePlayer` from src/app/api/match/[code]/action/route.ts: return the
payload value when it is exactly the string `"p1"` or `"p2"`, else the fallback
seat. -/
def normalizePlayer (payloadPlayer : Option JsonVal) (fallback : PlayerSlot) : PlayerSlot :=
  match payloadPlayer with
  | some (.str s) => if s = "p1" then .p1 else if s = "p2" then .p2 else fallback
  | _ => fallback

/-- Map a valid zone-name string to its ZoneKey. -/
def zoneKeyOfString (s : String) : Option ZoneKey :=
  if s = "deck" then some .deck
  else if s = "hand" then some .hand
  else if s = "battlefield" then some .battlefield
  else if s = "discard" then some .discard
  else none

/-- Function `ensureZone` from src/app/api/match/[code]/action/route.ts:
`typeof value === "string" && validateZone(value)`. -/
def ensureZone (value : Option JsonVal) : Option ZoneKey :=
  match value with
  | some (.str s) => if validateZone s then zoneKeyOfString s else none
  | _ => none

/-- Function `cardExists` from src/app/api/match/[code]/action/route.ts. -/
def cardExists (state : MatchState) (slot : PlayerSlot) (zone : ZoneKey) (cardUid : String) : Bool :=
  (getZone state slot zone).any (fun card => card.uid == cardUid)

/-- Resolution of `resolvedPayload.cardUid` in the move-card case:
`typeof cardUid === "string" ? cardUid : null`, after which `!cardUid` also
rejects the empty string (JavaScript falsiness), so a non-string or empty value
resolves to `none`. -/
def resolveCardUid (value : Option JsonVal) : Option String :=
  match value with
  | some (.str s) => if s = "" then none else some s
  | _ => none

/-- Resolution of `resolvedPayload.count` in the draw-card case:
`typeof count === "number" ? count : 1`, then `Math.max(1, count)`. -/
def resolveCount (value : Option JsonVal) : Int :=
  let count : Int :=
    match value with
    | some (.num n) => n
    | _ => 1
  max 1 count

/-- Resolution of `resolvedPayload.delta` in the life-change case:
`typeof delta === "number" ? delta : 0`. -/
def resolveDelta (value : Option JsonVal) : Int :=
  match value with
  | some (.num n) => n
  | _ => 0

/-- Resolution of `resolvedPayload.position` in the move-card case:
`position === "bottom" ? "bottom" : "top"`. -/
def resolvePosition (value : Option JsonVal) : MovePosition :=
  match value with
  | some (.str s) => if s = "bottom" then .bottom else .top
  | _ => .top

/-- The structured error responses the action route can return from its
validation and switch logic (each a `NextResponse.json({ error: ... }, 400)`). -/
inductive ActionError
  | actionTypeRequired
  | invalidMoveParameters
  | cardNotFound
  | deltaMustBeNonZero
  | unsupportedAction
deriving DecidableEq

/-- The `eventPayload` record the route builds: it starts as
`{ actor, type }` and each switch case adds its own fields. -/
structure EventPayload where
  actor : PlayerSlot
  type : String
  player : Option PlayerSlot := none
  count : Option Int := none
  cardUid : Option String := none
  fromSlot : Option PlayerSlot := none
  fromZone : Option ZoneKey := none
  toSlot : Option PlayerSlot := none
  toZone : Option ZoneKey := none
  position : Option MovePosition := none
  delta : Option Int := none
  turn : Option PlayerSlot := none
deriving DecidableEq

/-- The pure heart of the POST handler of
src/app/api/match/[code]/action/route.ts: the `if (!type)` guard and the
switch over action types, producing either a 400-class error or the mutated
state together with the event payload.  In JavaScript `!type` is also true for
the empty string.  `rand` is the ambient `Math.random()` stream consumed when a
case shuffles. -/
def dispatchAction (rand : Nat → Nat) (state : MatchState) (actorSlot : PlayerSlot)
    (type : Option String) (payload : ActionPayload) :
    Except ActionError (MatchState × EventPayload) :=
  match type with
  | none => .error .actionTypeRequired
  | some t =>
    if t = "" then .error .actionTypeRequired
    else if t = "draw-card" then
      let target := normalizePlayer payload.player actorSlot
      let used := resolveCount payload.count
      .ok (drawCards state target used.toNat,
        { actor := actorSlot, type := t, player := some target, count := some used })
    else if t = "shuffle-deck" then
      let target := normalizePlayer payload.player actorSlot
      .ok (shuffleDeck rand state target,
        { actor := actorSlot, type := t, player := some target })
    else if t = "move-card" then
      let cardUid := resolveCardUid payload.cardUid
      let fromSlot := normalizePlayer payload.fromSlot actorSlot
      let toSlot := normalizePlayer payload.toSlot actorSlot
      let fromZone := ensureZone payload.fromZone
      let toZone := ensureZone payload.toZone
      let position := resolvePosition payload.position
      match cardUid, fromZone, toZone with
      | some u, some fz, some tz =>
        if cardExists state fromSlot fz u then
          .ok (moveCardBetweenZones state fromSlot fz toSlot tz u position,
            { actor := actorSlot, type := t, cardUid := some u,
              fromSlot := some fromSlot, fromZone := some fz,
              toSlot := some toSlot, toZone := some tz,
              position := some position })
        else .error .cardNotFound
      | _, _, _ => .error .invalidMoveParameters
    else if t = "mulligan" then
      let target := normalizePlayer payload.player actorSlot
      .ok (mulliganHand rand state target,
        { actor := actorSlot, type := t, player := some target })
    else if t = "life-change" then
      let target := normalizePlayer payload.player actorSlot
      let delta := resolveDelta payload.delta
      if delta = 0 then .error .deltaMustBeNonZero
      else
        .ok (adjustLifeTotal state target delta,
          { actor := actorSlot, type := t, player := some target, delta := some delta })
    else if t = "end-turn" then
      let state1 := endTurn state
      .ok (state1, { actor := actorSlot, type := t, turn := some state1.turn })
    else .error .unsupportedAction

/-!
Persistence: the tail of the POST handler, against the tables of
src/supabase/migrations (`match_state` stores one `state` jsonb column per
match — no version column — and `match_events` has a table-global `bigserial`
primary key `id`).
-/

/-- A `match_events` row as the route inserts it (the `bigserial` id is
assigned by the store). -/
structure EventRow where
  id : Nat
  playerId : Option String
  type : String
  payload : EventPayload
deriving DecidableEq

/-- The durable store for one match: the `match_state.state` snapshot, the
`match_events` rows, and the next value of the `bigserial` event id. -/
structure StoreState where
  state : MatchState
  events : List EventRow
  nextEventId : Nat
deriving DecidableEq

/-- Outcome of one POST request, collapsing the HTTP responses: `success`
(`{ success: true }`), a 400-class structured error, or the 500 returned when
the `match_state` update fails. -/
inductive GatewayResult
  | success
  | badRequest (e : ActionError)
  | storeError
deriving DecidableEq

/-- The persistence tail of the POST handler: an unconditional
`admin.from("match_state").update({ state }).eq("match_id", ...)` — keyed only
on the match id, with no version predicate — followed by a
`match_events` insert whose error the route never checks.  `updateOk` and
`insertOk` say whether each collaborator call succeeds. -/
def persistPhase (store : StoreState) (newState : MatchState) (actorId : Option String)
    (type : String) (ev : EventPayload) (updateOk insertOk : Bool) :
    StoreState × GatewayResult :=
  if updateOk then
    let store1 := { store with state := newState }
    let store2 :=
      if insertOk then
        { store1 with
          events := store1.events ++ [⟨store1.nextEventId, actorId, type, ev⟩]
          nextEventId := store1.nextEventId + 1 }
      else store1
    (store2, .success)
  else (store, .storeError)

/-- One full (post-authentication) run of the POST handler: read the current
snapshot from the store, dispatch the action, and persist the result. -/
def runAction (rand : Nat → Nat) (store : StoreState) (actorSlot : PlayerSlot)
    (actorId : Option String) (type : Option String) (payload : ActionPayload)
    (updateOk insertOk : Bool) : StoreState × GatewayResult :=
  match dispatchAction rand store.state actorSlot type payload with
  | .error e => (store, .badRequest e)
  | .ok (newState, ev) =>
    persistPhase store newState actorId (type.getD "") ev updateOk insertOk

/-- Interleaving of two POST workers racing on the same match: both handlers
load the same snapshot (the route reads `match_state.state` before its switch),
then both persist; the second write is the same unconditional update as the
first, with no version check between the read and the write.  Both collaborator
calls succeed for both workers. -/
def overlappingRuns (rand : Nat → Nat) (store : StoreState)
    (actor1 : PlayerSlot) (id1 : Option String) (t1 : Option String) (pl1 : ActionPayload)
    (actor2 : PlayerSlot) (id2 : Option String) (t2 : Option String) (pl2 : ActionPayload) :
    StoreState × GatewayResult × GatewayResult :=
  let r1 := dispatchAction rand store.state actor1 t1 pl1
  let r2 := dispatchAction rand store.state actor2 t2 pl2
  match r1, r2 with
  | .error e1, .error e2 => (store, .badRequest e1, .badRequest e2)
  | .error e1, .ok (st2, ev2) =>
    let c2 := persistPhase store st2 id2 (t2.getD "") ev2 true true
    (c2.1, .badRequest e1, c2.2)
  | .ok (st1, ev1), .error e2 =>
    let c1 := persistPhase store st1 id1 (t1.getD "") ev1 true true
    (c1.1, c1.2, .badRequest e2)
  | .ok (st1, ev1), .ok (st2, ev2) =>
    let c1 := persistPhase store st1 id1 (t1.getD "") ev1 true true
    let c2 := persistPhase c1.1 st2 id2 (t2.getD "") ev2 true true
    (c2.1, c1.2, c2.2)

/-!
Concrete fixtures for closed theorems and witnesses.
-/

/-- A card whose uid and name coincide. -/
def mkCard (u : String) : MatchCard := ⟨u, u, none⟩

/-- Zones holding just a deck and a hand. -/
def mkZones (d h : List MatchCard) : PlayerZones := ⟨d, h, [], []⟩

/-- A small concrete match state: p1 holds deck [a, b, c] and hand [h0],
p2 holds deck [x, y]. -/
def exState : MatchState :=
  { players :=
      { p1 := ⟨some "alice", 20, mkZones [mkCard "a", mkCard "b", mkCard "c"] [mkCard "h0"]⟩
        p2 := ⟨some "bob", 20, mkZones [mkCard "x", mkCard "y"] []⟩ }
    turn := .p1
    phase := "main"
    createdAt := "2024-01-01T00:00:00Z" }


/-- A state whose p1 deck is empty, for the empty-deck no-op fact. -/
def exEmpty : MatchState :=
  { players :=
      { p1 := ⟨some "alice", 20, mkZones [] [mkCard "h1"]⟩
        p2 := ⟨some "bob", 20, mkZones [mkCard "x"] []⟩ }
    turn := .p1
    phase := "main"
    createdAt := "2024-01-01T00:00:00Z" }

/-- A store holding `exState` with an empty event log. -/
def exStore : StoreState := ⟨exState, [], 1⟩

/-!
List-level helper lemmas.
-/

/-- Consing the element at position `k` while writing `a` there permutes with
consing `a` in front. -/
theorem cons_set_perm {α} {ys : List α} {k : Nat} {b : α} (hk : ys.get? k = some b) (a : α) :
    (b :: ys.set k a).Perm (a :: ys) := by
  induction ys generalizing k with
  | nil => simp at hk
  | cons y t ih =>
    cases k with
    | zero =>
      simp only [List.get?_cons_zero, Option.some.injEq] at hk
      subst hk
      exact List.Perm.swap _ _ _
    | succ k =>
      simp only [List.get?_cons_succ] at hk
      have h1 : (b :: y :: t.set k a).Perm (y :: b :: t.set k a) := List.Perm.swap y b _
      have h2 : (y :: b :: t.set k a).Perm (y :: a :: t) := (ih hk).cons y
      have h3 : (y :: a :: t).Perm (a :: y :: t) := List.Perm.swap a y t
      exact (h1.trans h2).trans h3

/-- Exchanging the values at two valid positions is a permutation. -/
theorem set_set_perm {α} {xs : List α} {i j : Nat} {a b : α}
    (hi : xs.get? i = some a) (hj : xs.get? j = some b) :
    ((xs.set i b).set j a).Perm xs := by
  induction xs generalizing i j with
  | nil => simp at hi
  | cons x t ih =>
    cases i with
    | zero =>
      simp only [List.get?_cons_zero, Option.some.injEq] at hi
      subst hi
      cases j with
      | zero =>
        simp only [List.get?_cons_zero, Option.some.injEq] at hj
        subst hj
        exact List.Perm.refl _
      | succ j =>
        simp only [List.get?_cons_succ] at hj
        exact cons_set_perm hj _
    | succ i =>
      simp only [List.get?_cons_succ] at hi
      cases j with
      | zero =>
        simp only [List.get?_cons_zero, Option.some.injEq] at hj
        subst hj
        exact cons_set_perm hi _
      | succ j =>
        simp only [List.get?_cons_succ] at hj
        exact (ih hi hj).cons x

/-- A swap step never changes the multiset of elements. -/
theorem listSwap_perm {α} (xs : List α) (i j : Nat) : (listSwap xs i j).Perm xs := by
  unfold listSwap
  split
  next a b hi hj => exact set_set_perm hi hj
  next => exact List.Perm.refl _

/-- The shuffle loop never changes the multiset of elements. -/
theorem shuffleLoop_perm {α} (rand : Nat → Nat) (n : Nat) (xs : List α) :
    (shuffleLoop rand n xs).Perm xs := by
  induction n generalizing xs with
  | zero => exact List.Perm.refl _
  | succ n ih => exact (ih _).trans (listSwap_perm xs (n + 1) (rand (n + 1) % (n + 2)))

/-- Function `shuffleArray` never changes the multiset of elements. -/
theorem shuffleArray_perm {α} (rand : Nat → Nat) (xs : List α) :
    (shuffleArray rand xs).Perm xs :=
  shuffleLoop_perm rand (xs.length - 1) xs

/-- Closed form of the draw loop: the first `n` deck cards are moved, one at a
time, onto the hand front — hence they sit there in reverse order. -/
theorem drawLoop_eq (n : Nat) (deck hand : List MatchCard) :
    drawLoop n deck hand = (deck.drop n, (deck.take n).reverse ++ hand) := by
  induction n generalizing deck hand with
  | zero => rfl
  | succ n ih =>
    cases deck with
    | nil => rfl
    | cons card rest =>
      simp only [drawLoop, ih, List.drop_succ_cons, List.take_succ_cons, List.reverse_cons,
        List.append_assoc, List.singleton_append]

/-- Closed form of the mulligan loop: the hand is emptied onto the deck front,
one card at a time — hence in reverse order. -/
theorem mulliganLoop_eq (hand deck : List MatchCard) :
    mulliganLoop hand deck = ([], hand.reverse ++ deck) := by
  induction hand generalizing deck with
  | nil => rfl
  | cons card hand ih =>
    simp only [mulliganLoop, ih, List.reverse_cons, List.append_assoc, List.singleton_append]

/-- A list permutes with its element at a valid position consed onto the
remainder after erasing that position. -/
theorem perm_cons_eraseIdx {α} {xs : List α} {i : Nat} {c : α} (h : xs.get? i = some c) :
    xs.Perm (c :: xs.eraseIdx i) := by
  induction xs generalizing i with
  | nil => simp at h
  | cons x t ih =>
    cases i with
    | zero =>
      simp only [List.get?_cons_zero, Option.some.injEq] at h
      subst h
      exact List.Perm.refl _
    | succ i =>
      simp only [List.get?_cons_succ] at h
      have h1 : (x :: t).Perm (x :: c :: t.eraseIdx i) := (ih h).cons x
      have h2 : (x :: c :: t.eraseIdx i).Perm (c :: x :: t.eraseIdx i) := List.Perm.swap c x _
      exact h1.trans h2

/-!
Card conservation: the multiset of cards across all eight zones.
-/

/-- All cards of one player, every zone concatenated. -/
def PlayerZones.cards (z : PlayerZones) : List MatchCard :=
  z.deck ++ z.hand ++ z.battlefield ++ z.discard

/-- All cards of a match state, both players. -/
def allCards (s : MatchState) : List MatchCard :=
  s.players.p1.zones.cards ++ s.players.p2.zones.cards

/-- All card uids of a match state. -/
def allUids (s : MatchState) : List String :=
  (allCards s).map MatchCard.uid

/-- The multiset of all cards of a match state. -/
def bag (s : MatchState) : Multiset MatchCard :=
  ↑(allCards s)

/-- Reading back the zone just written. -/
theorem getZone_setZone_self (s : MatchState) (slot : PlayerSlot) (zone : ZoneKey)
    (xs : List MatchCard) : getZone (setZone s slot zone xs) slot zone = xs := by
  cases slot <;> cases zone <;> rfl

/-- Reading any other zone after a write. -/
theorem getZone_setZone_other (s : MatchState) (slot slot' : PlayerSlot) (zone zone' : ZoneKey)
    (xs : List MatchCard) (h : ¬(slot = slot' ∧ zone = zone')) :
    getZone (setZone s slot zone xs) slot' zone' = getZone s slot' zone' := by
  cases slot <;> cases zone <;> cases slot' <;> cases zone' <;>
    first
    | rfl
    | exact absurd (And.intro rfl rfl) h

/-- Writing a zone exchanges exactly that zone's contents in the card bag. -/
theorem bag_setZone (s : MatchState) (slot : PlayerSlot) (zone : ZoneKey)
    (xs : List MatchCard) :
    bag (setZone s slot zone xs) + ↑(getZone s slot zone) = bag s + (↑xs : Multiset MatchCard) := by
  cases slot <;> cases zone <;>
    · simp only [bag, allCards, setZone, getZone, Players.get, Players.set,
        PlayerZones.get, PlayerZones.set, PlayerZones.cards, ← Multiset.coe_add]
      abel

/-- Writing back the zone's own contents is the identity (structure eta). -/
theorem setZone_getZone (s : MatchState) (slot : PlayerSlot) (zone : ZoneKey) :
    setZone s slot zone (getZone s slot zone) = s := by
  cases slot <;> cases zone <;> rfl

/-- Operation `drawCards` preserves the card bag. -/
theorem bag_drawCards (s : MatchState) (slot : PlayerSlot) (count : Nat) :
    bag (drawCards s slot count) = bag s := by
  have hs1 : bag (setZone s slot .deck ((getZone s slot .deck).drop count)) +
      ↑(getZone s slot .deck) =
      bag s + ↑((getZone s slot .deck).drop count) :=
    bag_setZone s slot .deck _
  have hs2 : bag (drawCards s slot count) +
      ↑(getZone (setZone s slot .deck ((getZone s slot .deck).drop count)) slot .hand) =
      bag (setZone s slot .deck ((getZone s slot .deck).drop count)) +
      ↑(((getZone s slot .deck).take count).reverse ++ getZone s slot .hand) := by
    simpa only [drawCards, drawLoop_eq] using
      bag_setZone (setZone s slot .deck ((getZone s slot .deck).drop count)) slot .hand
        (((getZone s slot .deck).take count).reverse ++ getZone s slot .hand)
  rw [getZone_setZone_other _ slot slot ZoneKey.deck ZoneKey.hand _ (by simp)] at hs2
  have hsum : (↑((getZone s slot .deck).drop count) +
      (↑(((getZone s slot .deck).take count).reverse ++ getZone s slot .hand)) :
      Multiset MatchCard) =
      ↑(getZone s slot .deck) + ↑(getZone s slot .hand) := by
    conv_rhs => rw [← List.take_append_drop count (getZone s slot .deck)]
    simp only [← Multiset.coe_add, Multiset.coe_reverse]
    abel
  have := congrArg₂ (· + ·) hs1 hs2
  simp only at this
  apply add_right_cancel (b := (↑(getZone s slot .deck) + ↑(getZone s slot .hand) :
    Multiset MatchCard))
  calc bag (drawCards s slot count) +
      (↑(getZone s slot .deck) + ↑(getZone s slot .hand) : Multiset MatchCard)
      = bag (drawCards s slot count) + ↑(getZone s slot .hand) + ↑(getZone s slot .deck) := by
        abel
    _ = bag (setZone s slot .deck ((getZone s slot .deck).drop count)) +
        ↑(((getZone s slot .deck).take count).reverse ++ getZone s slot .hand) +
        ↑(getZone s slot .deck) := by rw [hs2]
    _ = bag s + ↑((getZone s slot .deck).drop count) +
        ↑(((getZone s slot .deck).take count).reverse ++ getZone s slot .hand) := by
        rw [← hs1]; abel
    _ = bag s + (↑(getZone s slot .deck) + ↑(getZone s slot .hand)) := by
        rw [add_assoc, hsum]

/-- Operation `shuffleDeck` preserves the card bag. -/
theorem bag_shuffleDeck (rand : Nat → Nat) (s : MatchState) (slot : PlayerSlot) :
    bag (shuffleDeck rand s slot) = bag s := by
  have hperm : ((shuffleArray rand (getZone s slot .deck) : List MatchCard) :
      Multiset MatchCard) = ↑(getZone s slot .deck) :=
    Multiset.coe_eq_coe.mpr (shuffleArray_perm _ _)
  have h := bag_setZone s slot .deck (shuffleArray rand (getZone s slot .deck))
  rw [hperm] at h
  exact add_right_cancel h

/-- Removing the card at a valid index of one zone and writing any list with
exactly that card added to the destination zone preserves the card bag. -/
theorem bag_insert_remove (s : MatchState) (fs : PlayerSlot) (fz : ZoneKey)
    (ts : PlayerSlot) (tz : ZoneKey) (card : MatchCard) (idx : Nat)
    (hg : (getZone s fs fz).get? idx = some card) (newDest : List MatchCard)
    (hnd : (↑newDest : Multiset MatchCard) =
      {card} + ↑(getZone (setZone s fs fz ((getZone s fs fz).eraseIdx idx)) ts tz)) :
    bag (setZone (setZone s fs fz ((getZone s fs fz).eraseIdx idx)) ts tz newDest) = bag s := by
  have hm : (↑(getZone s fs fz) : Multiset MatchCard) =
      {card} + ↑((getZone s fs fz).eraseIdx idx) := by
    rw [Multiset.singleton_add, Multiset.cons_coe, Multiset.coe_eq_coe]
    exact perm_cons_eraseIdx hg
  have h1 := bag_setZone s fs fz ((getZone s fs fz).eraseIdx idx)
  rw [hm, ← add_assoc] at h1
  have h1c : bag (setZone s fs fz ((getZone s fs fz).eraseIdx idx)) + {card} = bag s :=
    add_right_cancel h1
  have h2 := bag_setZone (setZone s fs fz ((getZone s fs fz).eraseIdx idx)) ts tz newDest
  rw [hnd, ← add_assoc] at h2
  have h2c : bag (setZone (setZone s fs fz ((getZone s fs fz).eraseIdx idx)) ts tz newDest) =
      bag (setZone s fs fz ((getZone s fs fz).eraseIdx idx)) + {card} :=
    add_right_cancel h2
  rw [h2c, h1c]

/-- Operation `moveCardBetweenZones` preserves the card bag. -/
theorem bag_moveCard (s : MatchState) (fromSlot : PlayerSlot) (fromZone : ZoneKey)
    (toSlot : PlayerSlot) (toZone : ZoneKey) (u : String) (pos : MovePosition) :
    bag (moveCardBetweenZones s fromSlot fromZone toSlot toZone u pos) = bag s := by
  unfold moveCardBetweenZones
  cases hf : (getZone s fromSlot fromZone).findIdx? (fun card => card.uid == u) with
  | none => simp only [hf]
  | some idx =>
    cases hg : (getZone s fromSlot fromZone).get? idx with
    | none => simp only [hf, hg]
    | some card =>
      simp only [hf, hg]
      cases pos with
      | top =>
        exact bag_insert_remove s fromSlot fromZone toSlot toZone card idx hg _
          (by rw [Multiset.singleton_add, Multiset.cons_coe])
      | bottom =>
        exact bag_insert_remove s fromSlot fromZone toSlot toZone card idx hg _
          (by rw [← Multiset.coe_add, Multiset.coe_singleton, add_comm])

/-- Operation `mulliganHand` preserves the card bag. -/
theorem bag_mulliganHand (rand : Nat → Nat) (s : MatchState) (slot : PlayerSlot) :
    bag (mulliganHand rand s slot) = bag s := by
  have hml := mulliganLoop_eq (getZone s slot .hand) (getZone s slot .deck)
  have hshuffle := bag_shuffleDeck rand
    (setZone (setZone s slot .hand [])
      slot .deck ((getZone s slot .hand).reverse ++ getZone s slot .deck)) slot
  have hgoal : bag (mulliganHand rand s slot) =
      bag (setZone (setZone s slot .hand [])
        slot .deck ((getZone s slot .hand).reverse ++ getZone s slot .deck)) := by
    unfold mulliganHand
    rw [hml]
    exact hshuffle
  rw [hgoal]
  have h1 := bag_setZone s slot .hand []
  simp only [Multiset.coe_nil, add_zero] at h1
  have h2 := bag_setZone (setZone s slot .hand [])
    slot .deck ((getZone s slot .hand).reverse ++ getZone s slot .deck)
  rw [getZone_setZone_other _ slot slot ZoneKey.hand ZoneKey.deck _ (by simp)] at h2
  rw [← Multiset.coe_add, Multiset.coe_reverse, ← add_assoc] at h2
  have h2c : bag (setZone (setZone s slot .hand [])
      slot .deck ((getZone s slot .hand).reverse ++ getZone s slot .deck)) =
      bag (setZone s slot .hand []) + ↑(getZone s slot .hand) :=
    add_right_cancel h2
  rw [h2c, h1]

/-- Operation `adjustLifeTotal` does not touch any zone. -/
theorem bag_adjustLifeTotal (s : MatchState) (slot : PlayerSlot) (delta : Int) :
    bag (adjustLifeTotal s slot delta) = bag s := by
  cases slot <;> rfl

/-- Operation `endTurn` does not touch any zone. -/
theorem bag_endTurn (s : MatchState) : bag (endTurn s) = bag s := rfl

/-!
Claim theorems.
-/

/-- Claim C3 (corrected): `drawCards` moves up to `count` cards from the front
of the seat's deck to the front of that seat's hand, drawing as many as
available when the deck is shorter and acting as a no-op on an empty deck —
but the cards are moved one at a time, so the drawn cards sit in the hand in
REVERSE order of their deck positions (the spec's "preserving relative order"
does not hold; see the counterexample). -/
theorem drawCards_moves_front_of_deck_reversed (s : MatchState) (slot : PlayerSlot)
    (count : Nat) :
    getZone (drawCards s slot count) slot .deck = (getZone s slot .deck).drop count ∧
    getZone (drawCards s slot count) slot .hand =
      ((getZone s slot .deck).take count).reverse ++ getZone s slot .hand ∧
    getZone (drawCards s slot count) slot .battlefield = getZone s slot .battlefield ∧
    getZone (drawCards s slot count) slot .discard = getZone s slot .discard ∧
    (∀ slot' zone', slot' ≠ slot →
      getZone (drawCards s slot count) slot' zone' = getZone s slot' zone') ∧
    (drawCards s slot count).turn = s.turn ∧
    (drawCards s slot count).phase = s.phase ∧
    (drawCards s slot count).createdAt = s.createdAt ∧
    (getZone s slot .deck = [] → drawCards s slot count = s) := by
  have hdc : drawCards s slot count =
      setZone (setZone s slot .deck ((getZone s slot .deck).drop count)) slot .hand
        (((getZone s slot .deck).take count).reverse ++ getZone s slot .hand) := by
    unfold drawCards
    rw [drawLoop_eq]
  refine ⟨?_, ?_, ?_, ?_, ?_, ?_, ?_, ?_, ?_⟩
  · rw [hdc, getZone_setZone_other _ slot slot ZoneKey.hand ZoneKey.deck _ (by simp),
      getZone_setZone_self]
  · rw [hdc, getZone_setZone_self]
  · rw [hdc, getZone_setZone_other _ slot slot ZoneKey.hand ZoneKey.battlefield _ (by simp),
      getZone_setZone_other _ slot slot ZoneKey.deck ZoneKey.battlefield _ (by simp)]
  · rw [hdc, getZone_setZone_other _ slot slot ZoneKey.hand ZoneKey.discard _ (by simp),
      getZone_setZone_other _ slot slot ZoneKey.deck ZoneKey.discard _ (by simp)]
  · intro slot' zone' hne
    rw [hdc, getZone_setZone_other _ slot slot' ZoneKey.hand zone' _ (by simp [Ne.symm hne]),
      getZone_setZone_other _ slot slot' ZoneKey.deck zone' _ (by simp [Ne.symm hne])]
  · rw [hdc]; cases slot <;> rfl
  · rw [hdc]; cases slot <;> rfl
  · rw [hdc]; cases slot <;> rfl
  · intro hdeck
    rw [hdc, hdeck]
    simp only [List.drop_nil, List.take_nil, List.reverse_nil, List.nil_append]
    have e1 : setZone s slot ZoneKey.deck [] = s := by rw [← hdeck, setZone_getZone]
    rw [e1, setZone_getZone]

/-- Claim C3 counterexample: drawing 2 cards from the deck [a, b, c] puts them
into the hand as [b, a], the reverse of their deck order, so the drawn cards do
not equal the deck's first cards in order as the claim states. -/
theorem drawCards_order_counterexample :
    (getZone (drawCards exState .p1 2) .p1 .hand).take 2 ≠
      (getZone exState .p1 .deck).take 2 ∧
    (getZone (drawCards exState .p1 2) .p1 .hand).take 2 =
      [mkCard "b", mkCard "a"] ∧
    (getZone exState .p1 .deck).take 2 = [mkCard "a", mkCard "b"] := by
  refine ⟨?_, by decide, by decide⟩
  decide

/-- Claim C4: every Mutation Engine operation — drawCards, shuffleDeck,
moveCardBetweenZones, mulliganHand, adjustLifeTotal, endTurn — preserves the
multiset of cards (hence of card uids) across all zones of both players, and
uid uniqueness is preserved. -/
theorem engine_preserves_card_multiset
    (rand : Nat → Nat) (s : MatchState) (slot : PlayerSlot) (count : Nat)
    (fromSlot toSlot : PlayerSlot) (fromZone toZone : ZoneKey)
    (u : String) (pos : MovePosition) (delta : Int)
    (hu : (allUids s).Nodup) :
    (allCards (drawCards s slot count)).Perm (allCards s) ∧
    (allCards (shuffleDeck rand s slot)).Perm (allCards s) ∧
    (allCards (moveCardBetweenZones s fromSlot fromZone toSlot toZone u pos)).Perm
      (allCards s) ∧
    (allCards (mulliganHand rand s slot)).Perm (allCards s) ∧
    (allCards (adjustLifeTotal s slot delta)).Perm (allCards s) ∧
    (allCards (endTurn s)).Perm (allCards s) ∧
    (allUids (drawCards s slot count)).Nodup ∧
    (allUids (shuffleDeck rand s slot)).Nodup ∧
    (allUids (moveCardBetweenZones s fromSlot fromZone toSlot toZone u pos)).Nodup ∧
    (allUids (mulliganHand rand s slot)).Nodup ∧
    (allUids (adjustLifeTotal s slot delta)).Nodup ∧
    (allUids (endTurn s)).Nodup := by
  have p1 : (allCards (drawCards s slot count)).Perm (allCards s) :=
    Multiset.coe_eq_coe.mp (bag_drawCards s slot count)
  have p2 : (allCards (shuffleDeck rand s slot)).Perm (allCards s) :=
    Multiset.coe_eq_coe.mp (bag_shuffleDeck rand s slot)
  have p3 : (allCards (moveCardBetweenZones s fromSlot fromZone toSlot toZone u pos)).Perm
      (allCards s) :=
    Multiset.coe_eq_coe.mp (bag_moveCard s fromSlot fromZone toSlot toZone u pos)
  have p4 : (allCards (mulliganHand rand s slot)).Perm (allCards s) :=
    Multiset.coe_eq_coe.mp (bag_mulliganHand rand s slot)
  have p5 : (allCards (adjustLifeTotal s slot delta)).Perm (allCards s) :=
    Multiset.coe_eq_coe.mp (bag_adjustLifeTotal s slot delta)
  have p6 : (allCards (endTurn s)).Perm (allCards s) :=
    Multiset.coe_eq_coe.mp (bag_endTurn s)
  exact ⟨p1, p2, p3, p4, p5, p6,
    ((p1.map MatchCard.uid).nodup_iff).mpr hu,
    ((p2.map MatchCard.uid).nodup_iff).mpr hu,
    ((p3.map MatchCard.uid).nodup_iff).mpr hu,
    ((p4.map MatchCard.uid).nodup_iff).mpr hu,
    ((p5.map MatchCard.uid).nodup_iff).mpr hu,
    ((p6.map MatchCard.uid).nodup_iff).mpr hu⟩

/-- Claim C4 witness: the conservation theorem instantiated at the concrete
fixture, whose uids are distinct. -/
theorem engine_preserves_card_multiset_witness :
    (allCards (drawCards exState .p1 2)).Perm (allCards exState) ∧
    (allCards (shuffleDeck (fun _ => 0) exState .p1)).Perm (allCards exState) ∧
    (allCards (moveCardBetweenZones exState .p1 .deck .p2 .hand "b" .top)).Perm
      (allCards exState) ∧
    (allCards (mulliganHand (fun _ => 0) exState .p1)).Perm (allCards exState) ∧
    (allCards (adjustLifeTotal exState .p1 3)).Perm (allCards exState) ∧
    (allCards (endTurn exState)).Perm (allCards exState) ∧
    (allUids (drawCards exState .p1 2)).Nodup ∧
    (allUids (shuffleDeck (fun _ => 0) exState .p1)).Nodup ∧
    (allUids (moveCardBetweenZones exState .p1 .deck .p2 .hand "b" .top)).Nodup ∧
    (allUids (mulliganHand (fun _ => 0) exState .p1)).Nodup ∧
    (allUids (adjustLifeTotal exState .p1 3)).Nodup ∧
    (allUids (endTurn exState)).Nodup :=
  engine_preserves_card_multiset (fun _ => 0) exState .p1 2 .p1 .p2 .deck .hand
    "b" .top 3 (by decide)

/-- Claim C8: `endTurn` flips the turn to the other seat and resets the phase
to the default label "main", touching nothing else; applied twice it returns
the turn to its original seat, with the phase at "main" after each
application. -/
theorem endTurn_flips_seat_and_resets_phase (s : MatchState) :
    (endTurn s).turn ≠ s.turn ∧
    (endTurn s).phase = "main" ∧
    (endTurn (endTurn s)).turn = s.turn ∧
    (endTurn (endTurn s)).phase = "main" ∧
    (endTurn s).players = s.players ∧
    (endTurn s).createdAt = s.createdAt := by
  cases h : s.turn <;>
    exact ⟨by simp [endTurn, h], rfl, by simp [endTurn, h], rfl, rfl, rfl⟩

/-- Claim C8 witness: the theorem applied at the concrete fixture. -/
theorem endTurn_flips_seat_and_resets_phase_witness :
    (endTurn exState).turn ≠ exState.turn ∧
    (endTurn exState).phase = "main" ∧
    (endTurn (endTurn exState)).turn = exState.turn ∧
    (endTurn (endTurn exState)).phase = "main" ∧
    (endTurn exState).players = exState.players ∧
    (endTurn exState).createdAt = exState.createdAt :=
  endTurn_flips_seat_and_resets_phase exState

/-- Claim C1 (refuted — code bug): the gateway's write is a blind
`update({ state })` with no version predicate; two overlapping requests that
both read the same snapshot both report success, and the second commit
silently discards the first one's mutation.  Here p1 starts at 20 life, one
request adds 3, the overlapping one subtracts 1, both succeed, and the stored
life ends at 19 instead of 22 — the +3 update is lost. -/
theorem gateway_blind_write_loses_update :
    (exStore.state.players.get .p1).life = 20 ∧
    (overlappingRuns (fun _ => 0) exStore
        .p1 (some "alice") (some "life-change") { delta := some (.num 3) }
        .p2 (some "bob") (some "life-change")
          { player := some (.str "p1"), delta := some (.num (-1)) }).2.1 =
      GatewayResult.success ∧
    (overlappingRuns (fun _ => 0) exStore
        .p1 (some "alice") (some "life-change") { delta := some (.num 3) }
        .p2 (some "bob") (some "life-change")
          { player := some (.str "p1"), delta := some (.num (-1)) }).2.2 =
      GatewayResult.success ∧
    ((overlappingRuns (fun _ => 0) exStore
        .p1 (some "alice") (some "life-change") { delta := some (.num 3) }
        .p2 (some "bob") (some "life-change")
          { player := some (.str "p1"), delta := some (.num (-1)) }).1.state.players.get
        .p1).life = 19 := by
  refine ⟨by decide, by decide, by decide, by decide⟩

/-- Claim C2 (refuted — code bug): the stored MatchState has no version field
and the gateway increments nothing: after two accepted end-turn mutations
(each reported success and each appending an event) the persisted snapshot is
byte-for-byte identical to the initial one, which is impossible for a state
whose version increases by exactly 1 per accepted mutation. -/
theorem accepted_mutations_leave_no_version_trace :
    (runAction (fun _ => 0) exStore .p1 (some "alice") (some "end-turn") {} true true).2 =
      GatewayResult.success ∧
    (runAction (fun _ => 0)
        (runAction (fun _ => 0) exStore .p1 (some "alice") (some "end-turn") {} true true).1
        .p2 (some "bob") (some "end-turn") {} true true).2 = GatewayResult.success ∧
    (runAction (fun _ => 0)
        (runAction (fun _ => 0) exStore .p1 (some "alice") (some "end-turn") {} true true).1
        .p2 (some "bob") (some "end-turn") {} true true).1.state = exStore.state ∧
    (runAction (fun _ => 0)
        (runAction (fun _ => 0) exStore .p1 (some "alice") (some "end-turn") {} true true).1
        .p2 (some "bob") (some "end-turn") {} true true).1.events.length = 2 := by
  refine ⟨by decide, by decide, by decide, by decide⟩

/-- Claim C6 (refuted — code bug): the state update and the event append are
two independent collaborator calls and the event insert's error is never
checked: when the update succeeds and the insert fails, the mutated snapshot
is visible (life 23), no event was appended, and the route still reports
success — the pair is not atomic. -/
theorem state_update_commits_without_event_append :
    (runAction (fun _ => 0) exStore .p1 (some "alice") (some "life-change")
        { delta := some (.num 3) } true false).2 = GatewayResult.success ∧
    ((runAction (fun _ => 0) exStore .p1 (some "alice") (some "life-change")
        { delta := some (.num 3) } true false).1.state.players.get .p1).life = 23 ∧
    (runAction (fun _ => 0) exStore .p1 (some "alice") (some "life-change")
        { delta := some (.num 3) } true false).1.events = exStore.events := by
  refine ⟨by decide, by decide, by decide⟩

/-- Claim C7 (refuted — code bug): `shuffleDeck(state, slot)` takes no random
source parameter — it reads the ambient global `Math.random()` stream (the
explicit `rand` argument of the embedding).  The resulting permutation is not
a function of the state and seat alone: two runs over the same state and seat
under different ambient streams disagree, so no caller-injected seed can make
shuffles reproducible. -/
theorem shuffleDeck_depends_on_ambient_random_stream :
    shuffleDeck (fun _ => 0) exState .p1 ≠ shuffleDeck (fun _ => 1) exState .p1 ∧
    getZone (shuffleDeck (fun _ => 0) exState .p1) .p1 .deck =
      [mkCard "b", mkCard "c", mkCard "a"] ∧
    getZone (shuffleDeck (fun _ => 1) exState .p1) .p1 .deck =
      [mkCard "a", mkCard "c", mkCard "b"] := by
  refine ⟨by decide, by decide, by decide⟩

/-- Claim C10: the draw-card case substitutes 1 for an absent, non-numeric, or
below-1 `count`, always invokes `drawCards` with the coerced value (at least
1), and records that coerced value in the event payload; a zero-card draw
cannot be requested through the gateway. -/
theorem draw_count_coerced_to_at_least_one (rand : Nat → Nat) (s : MatchState)
    (actor : PlayerSlot) (payload : ActionPayload) :
    1 ≤ resolveCount payload.count ∧
    (payload.count = none → resolveCount payload.count = 1) ∧
    (∀ n : Int, payload.count = some (.num n) → n < 1 → resolveCount payload.count = 1) ∧
    (∀ v : JsonVal, payload.count = some v → (∀ n : Int, v ≠ .num n) →
      resolveCount payload.count = 1) ∧
    dispatchAction rand s actor (some "draw-card") payload =
      .ok (drawCards s (normalizePlayer payload.player actor)
          (resolveCount payload.count).toNat,
        { actor := actor, type := "draw-card",
          player := some (normalizePlayer payload.player actor),
          count := some (resolveCount payload.count) }) := by
  refine ⟨le_max_left 1 _, ?_, ?_, ?_, rfl⟩
  · intro h
    rw [h]
    rfl
  · intro n h hn
    rw [h]
    show max 1 n = 1
    exact max_eq_left (by omega)
  · intro v h hnv
    rw [h]
    cases v with
    | num n => exact absurd rfl (hnv n)
    | str sv => rfl
    | jsonBool b => rfl
    | null => rfl
    | arr xs => rfl
    | obj fields => rfl

/-- Claim C10 witness: a draw-card request carrying count -4 is accepted with
the count coerced to 1. -/
theorem draw_count_coerced_to_at_least_one_witness :
    1 ≤ resolveCount (some (JsonVal.num (-4))) ∧
    resolveCount (some (JsonVal.num (-4))) = 1 ∧
    dispatchAction (fun _ => 0) exState .p1 (some "draw-card")
        { count := some (JsonVal.num (-4)) } =
      .ok (drawCards exState .p1 (resolveCount (some (JsonVal.num (-4)))).toNat,
        { actor := .p1, type := "draw-card", player := some .p1,
          count := some (resolveCount (some (JsonVal.num (-4)))) }) :=
  have h := draw_count_coerced_to_at_least_one (fun _ => 0) exState .p1
    { count := some (JsonVal.num (-4)) }
  ⟨h.1, h.2.2.1 (-4) rfl (by decide), h.2.2.2.2⟩

/-- Claim C9: when a payload's target-player field is missing or anything but
exactly the string "p1" or "p2", the gateway does not reject: it substitutes
the caller's resolved seat.  `normalizePlayer` returns the fallback for every
such value; every action type behaves exactly as if the bad player fields were
absent; and draw-card, shuffle-deck, mulligan and (for a non-zero delta)
life-change proceed against the caller's own seat, recording it as the target
in the event payload. -/
theorem invalid_target_player_falls_back_to_caller
    (rand : Nat → Nat) (s : MatchState) (actor : PlayerSlot) (payload : ActionPayload)
    (v : Option JsonVal)
    (hv1 : v ≠ some (JsonVal.str "p1")) (hv2 : v ≠ some (JsonVal.str "p2")) :
    normalizePlayer v actor = actor ∧
    (∀ t, dispatchAction rand s actor t
        { payload with player := v, fromSlot := v, toSlot := v } =
      dispatchAction rand s actor t
        { payload with player := none, fromSlot := none, toSlot := none }) ∧
    (∃ ev, dispatchAction rand s actor (some "draw-card") { payload with player := v } =
        .ok (drawCards s actor (resolveCount payload.count).toNat, ev) ∧
      ev.player = some actor) ∧
    (∃ ev, dispatchAction rand s actor (some "shuffle-deck") { payload with player := v } =
        .ok (shuffleDeck rand s actor, ev) ∧ ev.player = some actor) ∧
    (∃ ev, dispatchAction rand s actor (some "mulligan") { payload with player := v } =
        .ok (mulliganHand rand s actor, ev) ∧ ev.player = some actor) ∧
    (resolveDelta payload.delta ≠ 0 →
      ∃ ev, dispatchAction rand s actor (some "life-change") { payload with player := v } =
        .ok (adjustLifeTotal s actor (resolveDelta payload.delta), ev) ∧
      ev.player = some actor) := by
  have hnp : normalizePlayer v actor = actor := by
    cases v with
    | none => rfl
    | some jv =>
      cases jv with
      | str sv =>
        have h1 : sv ≠ "p1" := fun h => hv1 (by rw [h])
        have h2 : sv ≠ "p2" := fun h => hv2 (by rw [h])
        simp [normalizePlayer, h1, h2]
      | num n => rfl
      | jsonBool b => rfl
      | null => rfl
      | arr xs => rfl
      | obj fields => rfl
  have hnone : normalizePlayer (none : Option JsonVal) actor = actor := rfl
  refine ⟨hnp, ?_, ?_, ?_, ?_, ?_⟩
  · intro t
    cases t with
    | none => rfl
    | some u =>
      simp only [dispatchAction, hnp, hnone]
  · have hd : dispatchAction rand s actor (some "draw-card") { payload with player := v } =
        .ok (drawCards s (normalizePlayer v actor) (resolveCount payload.count).toNat,
          { actor := actor, type := "draw-card",
            player := some (normalizePlayer v actor),
            count := some (resolveCount payload.count) }) := rfl
    rw [hnp] at hd
    exact ⟨_, hd, rfl⟩
  · have hd : dispatchAction rand s actor (some "shuffle-deck") { payload with player := v } =
        .ok (shuffleDeck rand s (normalizePlayer v actor),
          { actor := actor, type := "shuffle-deck",
            player := some (normalizePlayer v actor) }) := rfl
    rw [hnp] at hd
    exact ⟨_, hd, rfl⟩
  · have hd : dispatchAction rand s actor (some "mulligan") { payload with player := v } =
        .ok (mulliganHand rand s (normalizePlayer v actor),
          { actor := actor, type := "mulligan",
            player := some (normalizePlayer v actor) }) := rfl
    rw [hnp] at hd
    exact ⟨_, hd, rfl⟩
  · intro hdelta
    have hd : dispatchAction rand s actor (some "life-change") { payload with player := v } =
        if resolveDelta payload.delta = 0 then Except.error ActionError.deltaMustBeNonZero
        else
          .ok (adjustLifeTotal s (normalizePlayer v actor) (resolveDelta payload.delta),
            { actor := actor, type := "life-change",
              player := some (normalizePlayer v actor),
              delta := some (resolveDelta payload.delta) }) := rfl
    rw [if_neg hdelta, hnp] at hd
    exact ⟨_, hd, rfl⟩

/-- Claim C9 witness: a numeric player value 7 (not "p1"/"p2") is silently
replaced by the caller's seat for each action family. -/
theorem invalid_target_player_falls_back_to_caller_witness :
    normalizePlayer (some (JsonVal.num 7)) .p1 = .p1 ∧
    (∀ t, dispatchAction (fun _ => 0) exState .p1 t
        { player := some (JsonVal.num 7), fromSlot := some (JsonVal.num 7),
          toSlot := some (JsonVal.num 7), delta := some (JsonVal.num 2) } =
      dispatchAction (fun _ => 0) exState .p1 t { delta := some (JsonVal.num 2) }) ∧
    (∃ ev, dispatchAction (fun _ => 0) exState .p1 (some "draw-card")
        { player := some (JsonVal.num 7), delta := some (JsonVal.num 2) } =
        .ok (drawCards exState .p1
          (resolveCount (none : Option JsonVal)).toNat, ev) ∧
      ev.player = some PlayerSlot.p1) ∧
    (∃ ev, dispatchAction (fun _ => 0) exState .p1 (some "shuffle-deck")
        { player := some (JsonVal.num 7), delta := some (JsonVal.num 2) } =
        .ok (shuffleDeck (fun _ => 0) exState .p1, ev) ∧ ev.player = some PlayerSlot.p1) ∧
    (∃ ev, dispatchAction (fun _ => 0) exState .p1 (some "mulligan")
        { player := some (JsonVal.num 7), delta := some (JsonVal.num 2) } =
        .ok (mulliganHand (fun _ => 0) exState .p1, ev) ∧ ev.player = some PlayerSlot.p1) ∧
    (∃ ev, dispatchAction (fun _ => 0) exState .p1 (some "life-change")
        { player := some (JsonVal.num 7), delta := some (JsonVal.num 2) } =
        .ok (adjustLifeTotal exState .p1
          (resolveDelta (some (JsonVal.num 2))), ev) ∧
      ev.player = some PlayerSlot.p1) :=
  have h := invalid_target_player_falls_back_to_caller (fun _ => 0) exState .p1
    { delta := some (JsonVal.num 2) } (some (JsonVal.num 7)) (by simp) (by simp)
  ⟨h.1, h.2.1, h.2.2.1, h.2.2.2.1, h.2.2.2.2.1, h.2.2.2.2.2 (by decide)⟩

/-- Function `findIdx?` with any start offset finds the first satisfying element. -/
theorem findIdx_go_first {α} (p : α → Bool) (pre : List α) (c : α) (post : List α)
    (hpre : ∀ x ∈ pre, p x = false) (hc : p c = true) :
    ∀ i, List.findIdx? p (pre ++ c :: post) i = some (i + pre.length) := by
  induction pre with
  | nil =>
    intro i
    simp [List.findIdx?_cons, hc]
  | cons x t ih =>
    intro i
    have hx : p x = false := hpre x (by simp)
    have ht : ∀ y ∈ t, p y = false := fun y hy => hpre y (by simp [hy])
    rw [List.cons_append, List.findIdx?_cons, hx]
    simp only [Bool.false_eq_true, if_false]
    rw [ih ht (i + 1)]
    simp only [List.length_cons]
    congr 1
    omega

/-- Function `findIdx?` finds the first satisfying element. -/
theorem findIdx_first {α} (p : α → Bool) (pre : List α) (c : α) (post : List α)
    (hpre : ∀ x ∈ pre, p x = false) (hc : p c = true) :
    List.findIdx? p (pre ++ c :: post) = some pre.length := by
  simpa using findIdx_go_first p pre c post hpre hc 0

/-- Lookup at the junction of an append. -/
theorem get?_append_cons {α} (pre : List α) (c : α) (post : List α) :
    (pre ++ c :: post).get? pre.length = some c := by
  induction pre with
  | nil => rfl
  | cons x t ih => simpa using ih

/-- Erasure at the junction of an append. -/
theorem eraseIdx_append_cons {α} (pre : List α) (c : α) (post : List α) :
    (pre ++ c :: post).eraseIdx pre.length = pre ++ post := by
  induction pre with
  | nil => rfl
  | cons x t ih => simp [List.eraseIdx, ih]

/-- Claim C5: a move-card request whose cardUid is absent from the declared
source zone fails with CardNotFound and leaves the store — the persisted
MatchState included — unchanged; when the card is present,
`moveCardBetweenZones` removes its first occurrence from the source zone and
inserts it at the front (top) or back (bottom) of the destination zone as that
zone stands after the removal. -/
theorem moveCard_missing_uid_rejected_else_front_or_back
    (rand : Nat → Nat) (store : StoreState) (actor : PlayerSlot) (actorId : Option String)
    (payload : ActionPayload) (u : String) (updateOk insertOk : Bool)
    (s : MatchState) (fs ts : PlayerSlot) (fz tz : ZoneKey)
    (pre post : List MatchCard) (c : MatchCard) :
    (∀ fz' tz', resolveCardUid payload.cardUid = some u →
      ensureZone payload.fromZone = some fz' → ensureZone payload.toZone = some tz' →
      cardExists store.state (normalizePlayer payload.fromSlot actor) fz' u = false →
      runAction rand store actor actorId (some "move-card") payload updateOk insertOk =
        (store, .badRequest .cardNotFound)) ∧
    (getZone s fs fz = pre ++ c :: post → c.uid = u → (∀ x ∈ pre, x.uid ≠ u) →
      (moveCardBetweenZones s fs fz ts tz u .top =
        setZone (setZone s fs fz (pre ++ post)) ts tz
          (c :: getZone (setZone s fs fz (pre ++ post)) ts tz) ∧
       moveCardBetweenZones s fs fz ts tz u .bottom =
        setZone (setZone s fs fz (pre ++ post)) ts tz
          (getZone (setZone s fs fz (pre ++ post)) ts tz ++ [c]))) := by
  constructor
  · intro fz' tz' hcu hfz htz hex
    have hstep : dispatchAction rand store.state actor (some "move-card") payload =
        (match resolveCardUid payload.cardUid, ensureZone payload.fromZone,
            ensureZone payload.toZone with
        | some u0, some fz0, some tz0 =>
          if cardExists store.state (normalizePlayer payload.fromSlot actor) fz0 u0 then
            Except.ok (moveCardBetweenZones store.state
                (normalizePlayer payload.fromSlot actor) fz0
                (normalizePlayer payload.toSlot actor) tz0 u0
                (resolvePosition payload.position),
              { actor := actor, type := "move-card", cardUid := some u0,
                fromSlot := some (normalizePlayer payload.fromSlot actor),
                fromZone := some fz0,
                toSlot := some (normalizePlayer payload.toSlot actor),
                toZone := some tz0,
                position := some (resolvePosition payload.position) })
          else Except.error ActionError.cardNotFound
        | _, _, _ => Except.error ActionError.invalidMoveParameters) := rfl
    have hdis : dispatchAction rand store.state actor (some "move-card") payload =
        Except.error ActionError.cardNotFound := by
      rw [hstep, hcu, hfz, htz]
      simp [hex]
    unfold runAction
    rw [hdis]
  · intro hsrc hcuid hpre
    have hp : ∀ x ∈ pre, (fun card => card.uid == u) x = false := by
      intro x hx
      simpa using hpre x hx
    have hcb : (fun card => card.uid == u) c = true := by simpa using hcuid
    have hfind : (getZone s fs fz).findIdx? (fun card => card.uid == u) =
        some pre.length := by
      rw [hsrc]
      exact findIdx_first _ pre c post hp hcb
    have hget : (getZone s fs fz).get? pre.length = some c := by
      rw [hsrc]
      exact get?_append_cons pre c post
    have herase : (getZone s fs fz).eraseIdx pre.length = pre ++ post := by
      rw [hsrc]
      exact eraseIdx_append_cons pre c post
    constructor
    · simp only [moveCardBetweenZones, hfind, hget, herase]
    · simp only [moveCardBetweenZones, hfind, hget, herase]

/-- Claim C5 witness: a move of the absent uid "zzz" from p1's deck is rejected
with the store unchanged, and moving the present card b from p1's deck to
p2's hand lands it at the front of that hand. -/
theorem moveCard_missing_uid_rejected_else_front_or_back_witness :
    runAction (fun _ => 0) exStore .p1 (some "alice") (some "move-card")
        { cardUid := some (.str "zzz"), fromZone := some (.str "deck"),
          toZone := some (.str "hand") } true true =
      (exStore, .badRequest .cardNotFound) ∧
    moveCardBetweenZones exState .p1 .deck .p2 .hand "b" .top =
      setZone (setZone exState .p1 .deck ([mkCard "a"] ++ [mkCard "c"])) .p2 .hand
        (mkCard "b" ::
          getZone (setZone exState .p1 .deck ([mkCard "a"] ++ [mkCard "c"])) .p2 .hand) :=
  have h1 := moveCard_missing_uid_rejected_else_front_or_back (fun _ => 0) exStore .p1
    (some "alice")
    { cardUid := some (.str "zzz"), fromZone := some (.str "deck"),
      toZone := some (.str "hand") } "zzz" true true
    exState .p1 .p2 .deck .hand [] [] (mkCard "b")
  have h2 := moveCard_missing_uid_rejected_else_front_or_back (fun _ => 0) exStore .p1
    (some "alice")
    { cardUid := some (.str "zzz"), fromZone := some (.str "deck"),
      toZone := some (.str "hand") } "b" true true
    exState .p1 .p2 .deck .hand [mkCard "a"] [mkCard "c"] (mkCard "b")
  ⟨h1.1 .deck .hand (by decide) (by decide) (by decide) (by decide),
   (h2.2 (by decide) rfl (by decide)).1⟩

/-- Claim C3 witness: the draw theorem instantiated concretely — drawing 2
from exState's 3-card p1 deck, p2's zones untouched, and a 3-card draw from an
empty deck being a no-op. -/
theorem drawCards_moves_front_of_deck_reversed_witness :
    getZone (drawCards exState .p1 2) .p1 .deck = (getZone exState .p1 .deck).drop 2 ∧
    getZone (drawCards exState .p1 2) .p1 .hand =
      ((getZone exState .p1 .deck).take 2).reverse ++ getZone exState .p1 .hand ∧
    getZone (drawCards exState .p1 2) .p2 .deck = getZone exState .p2 .deck ∧
    drawCards exEmpty .p1 3 = exEmpty :=
  have h := drawCards_moves_front_of_deck_reversed exState .p1 2
  have he := drawCards_moves_front_of_deck_reversed exEmpty .p1 3
  ⟨h.1, h.2.1, h.2.2.2.2.1 .p2 .deck (by decide),
   he.2.2.2.2.2.2.2.2 (by decide)⟩

end RiftSim
